import Mathlib

/-!
Verification of the data-acquisition and normalization core of the
YouTube global news dashboard (src/app.py) against its specification.

The Python source is shallowly embedded below.  Pure helper functions
(`parse_iso8601_duration`, `format_views`, `format_duration`, `format_age`)
become Lean functions of the same name; the per-item normalization loop of
`fetch_trending_for_region` (lines 153-201) becomes `normalizeItem` /
`normalize_items`; `fetch_multi_region` (lines 206-223) becomes
`fetch_all` / `fetch_multi_region`, with the outbound network call
abstracted as a function argument of type `String -> Except String (List Video)`
(a raised Python exception is an `Except.error`).  Timestamps are modelled
as `Int` (epoch seconds); the Python-library datetime parser
`datetime.fromisoformat` is passed in as an opaque total function argument.
-/

namespace App

/-- Python truthiness helper used below: `Except.ok` results count as success. -/
def except_ok {e a : Type} : Except e a → Bool
  | Except.ok _ => true
  | Except.error _ => false

/-! ### Duration parsing (app.py lines 67-90)

The source compiles the regex
`P (?:(?P<days>\d+)D)? (?:T (?:(?P<hours>\d+)H)? (?:(?P<minutes>\d+)M)? (?:(?P<seconds>\d+)S)?)?`
and `fullmatch`es it.  Each optional group `(?:\d+X)?` matches a maximal
non-empty digit run directly followed by the designator letter `X`, or
matches nothing; that is `try_comp` below.  `fullmatch` requires the
remainder after all groups to be empty, else the parser yields 0.  The
regex alternatives (taking or skipping an optional group) never change
whether the overall fullmatch succeeds: a skipped group leaves the same
characters unmatched, so the deterministic parser below is equivalent. -/

/-- Numeric value of a decimal digit character. -/
def digit_val (c : Char) : Nat := c.toNat - 48

/-- Value of a digit run, most significant first (regex group -> `int`). -/
def digits_val (l : List Char) : Nat := l.foldl (fun a c => a * 10 + digit_val c) 0

/-- Consume a maximal (possibly empty) digit run, accumulating its value. -/
def take_digits : List Char → Nat → Nat × List Char
  | [], acc => (acc, [])
  | c :: cs, acc =>
    if c.isDigit then take_digits cs (acc * 10 + digit_val c) else (acc, c :: cs)

/-- One optional regex group `(?:(\d+)desig)?`: a non-empty digit run followed
by the designator letter, else nothing (group value 0, input unchanged,
matching `int(m.group(...) or 0)`). -/
def try_comp (desig : Char) (cs : List Char) : Nat × List Char :=
  match cs with
  | [] => (0, [])
  | c :: rest =>
    if c.isDigit then
      match take_digits (c :: rest) 0 with
      | (n, d :: r2) => if d = desig then (n, r2) else (0, c :: rest)
      | (_, []) => (0, c :: rest)
    else (0, c :: rest)

/-- Final step of the parser: `fullmatch` demands an empty remainder, and the
matched groups combine as `(((days * 24 + hours) * 60) + minutes) * 60 + seconds`
(app.py line 89); a leftover remainder means no fullmatch, hence 0. -/
def dur_total (days hours minutes seconds : Nat) (r2 : List Char) : Nat :=
  if r2 = [] then (((days * 24 + hours) * 60) + minutes) * 60 + seconds else 0

/-- Seconds group of the `T` part. -/
def dur_s (days hours minutes : Nat) (ss : Nat × List Char) : Nat :=
  dur_total days hours minutes ss.1 ss.2

/-- Minutes then seconds groups of the `T` part. -/
def dur_ms (days hours : Nat) (mm : Nat × List Char) : Nat :=
  dur_s days hours mm.1 (try_comp 'S' mm.2)

/-- Hours, minutes, seconds groups of the `T` part. -/
def dur_hms (days : Nat) (hh : Nat × List Char) : Nat :=
  dur_ms days hh.1 (try_comp 'M' hh.2)

/-- After the optional days group: the optional `(?:T ...)` part. -/
def dur_after_p (dd : Nat × List Char) : Nat :=
  match dd.2 with
  | 'T' :: r => dur_hms dd.1 (try_comp 'H' r)
  | _ => dur_total dd.1 0 0 0 dd.2

/-- app.py lines 67-90.  `None` and `""` are falsy (`if not duration_str`),
which coincides with the empty character list falling into the no-match
branch; any string not starting with `P` cannot fullmatch. -/
def parse_iso8601_duration : Option String → Nat
  | none => 0
  | some s =>
    match s.data with
    | 'P' :: rest => dur_after_p (try_comp 'D' rest)
    | _ => 0

/-! ### Display formatters (app.py lines 93-130) -/

/-- Round `num / den` to the nearest integer, ties to even: the rounding
CPython's `format(x, '.1f')` applies to the value `x`.  Used through
`py_fmt_1f`, this models `f"{v/den:.1f}"` exactly whenever `v/den` is
exactly representable as a binary double (true at every concrete input
evaluated in this file); it abstracts from double-precision artifacts
on other inputs. -/
def py_round_half_even (num den : Nat) : Nat :=
  let q := num / den
  let r := num % den
  if 2 * r < den then q
  else if den < 2 * r then q + 1
  else if q % 2 = 0 then q else q + 1

/-- Models the Python f-string `f"{v/den:.1f}"` for natural `v`, `den > 0`. -/
def py_fmt_1f (v den : Nat) : String :=
  let t := py_round_half_even (10 * v) den
  toString (t / 10) ++ "." ++ toString (t % 10)

/-- app.py lines 93-101 (`format_views`).  `views is None` becomes the `none`
case.  The final branch `f"{v:,}"` is reached only for `v < 1000`, where the
thousands grouping separator never appears, so it is the plain decimal
rendering.  View counts are non-negative (spec invariant `view_count >= 0`),
so the argument is `Nat`. -/
def format_views : Option Nat → String
  | none => "–"
  | some v =>
    if 1000000 ≤ v then py_fmt_1f v 1000000 ++ "M"
    else if 1000 ≤ v then py_fmt_1f v 1000 ++ "K"
    else toString v

/-- Python `f"{n:02d}"`: zero-pad to two digits. -/
def pad2 (n : Nat) : String := if n < 10 then "0" ++ toString n else toString n

/-- app.py lines 104-111 (`format_duration`).  `if not seconds` is true for
both `None` and `0`.  `m, s = divmod(seconds, 60); h, m = divmod(m, 60)`. -/
def format_duration : Option Nat → String
  | none => "–"
  | some secs =>
    if secs = 0 then "–"
    else
      let m := secs / 60
      let s := secs % 60
      let h := m / 60
      let m2 := m % 60
      if h ≠ 0 then toString h ++ ":" ++ pad2 m2 ++ ":" ++ pad2 s
      else toString m2 ++ ":" ++ pad2 s

/-- Python `'s' if n != 1 else ''`. -/
def plural_s (n : Nat) : String := if n ≠ 1 then "s" else ""

/-- app.py lines 114-130 (`format_age`).  For a past `published_at`,
`delta = now - published_at` is a non-negative `timedelta`, which Python
normalizes into `delta.days >= 0` and `0 <= delta.seconds < 86400`; those two
components are the arguments here.  The body is the early-return chain of the
source: weeks when `days > 7`, days, hours, minutes (rendered `"min"`, never
pluralized), else `"just now"`. -/
def format_age (days seconds : Nat) : String :=
  if 7 < days then
    toString (days / 7) ++ " week" ++ plural_s (days / 7) ++ " ago"
  else if 1 ≤ days then
    toString days ++ " day" ++ plural_s days ++ " ago"
  else
    let hours := seconds / 3600
    if 1 ≤ hours then toString hours ++ " hour" ++ plural_s hours ++ " ago"
    else
      let minutes := seconds % 3600 / 60
      if 1 ≤ minutes then toString minutes ++ " min ago"
      else "just now"

/-! ### Raw API item shape and record normalization (app.py lines 139-203)

A raw item is a nested JSON object; optional dictionary entries become
`Option` fields.  `item["id"]` is a bracket access that raises `KeyError`
when absent; every other access uses `.get` with a default. -/

/-- One thumbnail variant object; `thumb_obj.get("url")` may be absent.
A variant present in the raw `thumbnails` dictionary is modelled as `some`
(present thumbnail objects are non-empty, hence truthy, dictionaries). -/
structure ThumbObj where
  url : Option String
deriving Repr, DecidableEq

/-- The raw `snippet.thumbnails` dictionary.  The upstream data may carry
`medium`, `high`, `standard` and `default` variants; the source code reads
only `medium`, `high` and `default` (app.py lines 177-182). -/
structure Thumbs where
  medium : Option ThumbObj
  high : Option ThumbObj
  standard : Option ThumbObj
  default : Option ThumbObj
deriving Repr, DecidableEq

/-- The raw `snippet` section (`item.get("snippet", {})`). -/
structure Snippet where
  title : Option String
  description : Option String
  channelTitle : Option String
  publishedAt : Option String
  thumbnails : Option Thumbs
deriving Repr, DecidableEq

/-- The raw `statistics` section.  `viewCount` is read with
`int(stats.get("viewCount", 0))` guarded by `try/except -> 0`; both the
absent case and the unparseable case collapse to 0, so the field is
modelled as the parsed count when present. -/
structure Stats where
  viewCount : Option Nat
deriving Repr, DecidableEq

/-- The raw `contentDetails` section (`details.get("duration", "")`). -/
structure ContentDetails where
  duration : Option String
deriving Repr, DecidableEq

/-- One element of the response's `items` array. -/
structure RawItem where
  id : Option String
  snippet : Option Snippet
  statistics : Option Stats
  contentDetails : Option ContentDetails
deriving Repr, DecidableEq

/-- Empty-dictionary defaults for the `.get(..., {})` accesses. -/
def default_thumbs : Thumbs := ⟨none, none, none, none⟩

def default_snippet : Snippet := ⟨none, none, none, none, none⟩

def default_stats : Stats := ⟨none⟩

def default_details : ContentDetails := ⟨none⟩

/-- One normalized record: the dictionary literal of app.py lines 187-201. -/
structure Video where
  region_code : String
  region_name : String
  video_id : String
  title : String
  description : String
  channel_title : String
  published_at : Int
  duration_sec : Nat
  view_count : Nat
  thumbnail_url : Option String
  url : String
deriving Repr, DecidableEq

/-- The dictionary keys of the record literal built at app.py lines 187-201,
in source order.  These are all the fields a normalized record carries. -/
def videoRecordKeys : List String :=
  ["region_code", "region_name", "video_id", "title", "description",
   "channel_title", "published_at", "duration_sec", "view_count",
   "thumbnail_url", "url"]

/-- app.py lines 32-51: `REGION_LABELS` lookup table (`dict.get` as `Option`). -/
def REGION_LABELS : String → Option String
  | "US" => some "United States"
  | "CA" => some "Canada"
  | "GB" => some "United Kingdom"
  | "AU" => some "Australia"
  | "IN" => some "India"
  | "DE" => some "Germany"
  | "FR" => some "France"
  | "BR" => some "Brazil"
  | "JP" => some "Japan"
  | "ZA" => some "South Africa"
  | "MX" => some "Mexico"
  | "IT" => some "Italy"
  | "ES" => some "Spain"
  | "NL" => some "Netherlands"
  | "SE" => some "Sweden"
  | "KR" => some "South Korea"
  | "SG" => some "Singapore"
  | "ID" => some "Indonesia"
  | _ => none

/-- Python `a or b` on the thumbnail dictionaries (app.py lines 177-182). -/
def py_or (a b : Option ThumbObj) : Option ThumbObj :=
  match a with
  | some x => some x
  | none => b

/-- app.py lines 176-183: `(thumbs.get("medium") or thumbs.get("high") or
thumbs.get("default") or {}).get("url")`.  The `standard` variant is never
consulted by the source. -/
def thumb_url_of (t : Thumbs) : Option String :=
  match py_or (py_or t.medium t.high) t.default with
  | some o => o.url
  | none => none

/-- The `snippet` dictionary actually used (after the `.get("snippet", {})`
default). -/
def snippet_of (item : RawItem) : Snippet := item.snippet.getD default_snippet

/-- One iteration of the normalization loop, app.py lines 154-201.
`parseTime` stands for the Python-library call
`datetime.fromisoformat` (applied after `.replace("Z", "+00:00")`) and
`now` for `datetime.now(timezone.utc)`.  The only repository-code failure in
the loop body is `item["id"]` raising `KeyError` on a missing `id`; it is
returned as `Except.error`.  `if published_at_str` is Python truthiness, so
both a missing and an empty `publishedAt` fall back to `now`. -/
def normalizeItem (parseTime : String → Int) (now : Int) (region_code : String)
    (item : RawItem) : Except String Video :=
  match item.id with
  | none => Except.error "KeyError: id"
  | some vid =>
    let snip := item.snippet.getD default_snippet
    let stats := item.statistics.getD default_stats
    let details := item.contentDetails.getD default_details
    let title := snip.title.getD ""
    let desc := snip.description.getD ""
    let channel_title := snip.channelTitle.getD ""
    let published_at :=
      match snip.publishedAt with
      | some p => if p = "" then now else parseTime (p.replace "Z" "+00:00")
      | none => now
    let duration := parse_iso8601_duration (some (details.duration.getD ""))
    let views := stats.viewCount.getD 0
    let thumbs := snip.thumbnails.getD default_thumbs
    Except.ok
      { region_code := region_code
        region_name := (REGION_LABELS region_code).getD region_code
        video_id := vid
        title := title
        description := desc
        channel_title := channel_title
        published_at := published_at
        duration_sec := duration
        view_count := views
        thumbnail_url := thumb_url_of thumbs
        url := "https://www.youtube.com/watch?v=" ++ vid }

/-- The whole normalization loop of `fetch_trending_for_region`
(app.py lines 153-203): items are processed in order, appending each
normalized record; an exception raised for one item propagates and aborts
the loop (there is no per-item `try/except`). -/
def normalize_items (parseTime : String → Int) (now : Int) (region_code : String) :
    List RawItem → Except String (List Video)
  | [] => Except.ok []
  | it :: rest =>
    match normalizeItem parseTime now region_code it with
    | Except.error e => Except.error e
    | Except.ok v =>
      match normalize_items parseTime now region_code rest with
      | Except.error e => Except.error e
      | Except.ok vs => Except.ok (v :: vs)

/-! ### Multi-region aggregation (app.py lines 206-223)

`fetch_trending_for_region` performs the network call; it is abstracted
here as `fetch : String -> Except String (List Video)`, where
`Except.error` is an exception raised inside the call (e.g.
`resp.raise_for_status()` in `yt_get`). -/

/-- The loop of `fetch_multi_region` (app.py lines 211-220): fetch each
region in order, keeping non-empty frames (`if not df_region.empty`), and
concatenate (`pd.concat` / empty `DataFrame`).  An exception raised by any
region's fetch propagates: there is no `try/except` around the calls. -/
def fetch_all (fetch : String → Except String (List Video)) :
    List String → Except String (List Video)
  | [] => Except.ok []
  | c :: cs =>
    match fetch c with
    | Except.error e => Except.error e
    | Except.ok df =>
      match fetch_all fetch cs with
      | Except.error e => Except.error e
      | Except.ok rest => Except.ok ((if df.isEmpty then [] else df) ++ rest)

/-- app.py lines 206-223: combine all regions and stamp
`fetched_at_utc = datetime.now(timezone.utc)` (passed in as `now`). -/
def fetch_multi_region (fetch : String → Except String (List Video)) (now : Int)
    (codes : List String) : Except String (List Video × Int) :=
  match fetch_all fetch codes with
  | Except.error e => Except.error e
  | Except.ok combined => Except.ok (combined, now)

/-- The records of a fetch outcome (none for a raised exception). -/
def ok_records : Except String (List Video) → List Video
  | Except.ok vs => vs
  | Except.error _ => []

/-- Concatenation, in input order, of the records of the regions whose fetch
succeeds (used to state what `fetch_multi_region` returns when no fetch
raises). -/
def regions_concat (fetch : String → Except String (List Video))
    (codes : List String) : List Video :=
  codes.foldr (fun c acc => ok_records (fetch c) ++ acc) []

/-! ### Concrete inputs used by counterexamples and witnesses -/

/-- A concrete normalized record (an arbitrary well-formed `Video`). -/
def sample_video : Video :=
  { region_code := "US"
    region_name := "United States"
    video_id := "v1"
    title := "t"
    description := ""
    channel_title := "c"
    published_at := 0
    duration_sec := 10
    view_count := 5
    thumbnail_url := none
    url := "https://www.youtube.com/watch?v=v1" }

/-- A fetch function whose region "A" raises and whose other regions
succeed with one record. -/
def cex_fetch : String → Except String (List Video) :=
  fun c => if c = "A" then Except.error "boom" else Except.ok [sample_video]

/-- A fetch function that always succeeds with an empty region result. -/
def ok_fetch : String → Except String (List Video) :=
  fun _ => Except.ok ([] : List Video)

/-- A stand-in for `datetime.fromisoformat` at concrete inputs. -/
def pt0 : String → Int := fun _ => 0

/-- A raw item that normalizes successfully (all optional sections absent). -/
def good_item : RawItem :=
  { id := some "vid1", snippet := none, statistics := none, contentDetails := none }

/-- A raw item with no `id` entry: `item["id"]` raises `KeyError`. -/
def bad_item : RawItem :=
  { id := none, snippet := none, statistics := none, contentDetails := none }

/-- A `thumbnails` dictionary that carries only the `standard` variant. -/
def standard_only_thumbs : Thumbs :=
  { medium := none, high := none
    standard := some { url := some "https://img/std.jpg" }, default := none }

/-- A `thumbnails` dictionary that carries only the `medium` variant. -/
def medium_thumbs : Thumbs :=
  { medium := some { url := some "https://img/med.jpg" }, high := none
    standard := none, default := none }

/-! ### Duration-grammar vocabulary used to state the parser claim -/

/-- A well-formed optional duration component: absent, or a non-empty run of
decimal digit characters. -/
def valid_comp : Option (List Char) → Bool
  | none => true
  | some l => !l.isEmpty && l.all Char.isDigit

/-- The characters an optional component contributes to the duration string:
nothing when absent, else its digit run followed by the designator letter. -/
def comp_str : Option (List Char) → Char → List Char
  | none, _ => []
  | some l, desig => l ++ [desig]

/-- The numeric value of an optional component (`int(m.group(...) or 0)`). -/
def opt_val : Option (List Char) → Nat
  | none => 0
  | some l => digits_val l

/-! ## Claims about the normalized record shape (C2) -/

/-- Claim C2, counterexample: the claim asserts every normalized record
carries a derived `is_short_form` field, but the record literal of
app.py lines 187-201 has no such key — no short-form classification is
computed anywhere in the source. -/
theorem video_no_short_form_field_cex : ¬ ("is_short_form" ∈ videoRecordKeys) := by
  decide

/-- Claim C2, amended: a normalized record carries exactly the eleven fields
`region_code`, `region_name`, `video_id`, `title`, `description`,
`channel_title`, `published_at`, `duration_sec`, `view_count`,
`thumbnail_url`, `url`, and none of them is an `is_short_form`
classification field. -/
theorem video_record_fields :
    videoRecordKeys =
      ["region_code", "region_name", "video_id", "title", "description",
       "channel_title", "published_at", "duration_sec", "view_count",
       "thumbnail_url", "url"] ∧
    ∀ k ∈ videoRecordKeys, k ≠ "is_short_form" := ⟨rfl, by decide⟩

/-- Witness for `video_record_fields` at the concrete key `"region_code"`. -/
theorem video_record_fields_witness : "region_code" ≠ "is_short_form" :=
  video_record_fields.2 "region_code" (by decide)

/-! ## Claims about `format_views` (C3) -/

/-- Claim C3, counterexample: the claim says counts at or above 1,000,000,000
render with suffix `B`, but `format_views` (app.py lines 93-101) has no
billion branch: 1,000,000,000 renders as `"1000.0M"`, not `"1.0B"`. -/
theorem format_views_billion_cex :
    format_views (some 1000000000) = "1000.0M" ∧
    format_views (some 1000000000) ≠ "1.0B" := by
  refine ⟨rfl, ?_⟩
  decide

/-- Claim C3, amended: for non-negative counts, `format_views` has thresholds
only at 1,000 and 1,000,000: `None` renders as the dash placeholder, counts
below 1,000 as the exact integer string, counts in [1,000, 1,000,000) as a
one-decimal value with suffix `K`, and all counts at or above 1,000,000
(including those at or above 1,000,000,000) as a one-decimal value with
suffix `M`. -/
theorem format_views_thresholds (n : Nat) :
    format_views none = "–" ∧
    (n < 1000 → format_views (some n) = toString n) ∧
    (1000 ≤ n → n < 1000000 → format_views (some n) = py_fmt_1f n 1000 ++ "K") ∧
    (1000000 ≤ n → format_views (some n) = py_fmt_1f n 1000000 ++ "M") := by
  refine ⟨rfl, fun h => ?_, fun h1 h2 => ?_, fun h => ?_⟩
  · simp only [format_views]
    rw [if_neg (by omega), if_neg (by omega)]
  · simp only [format_views]
    rw [if_neg (by omega), if_pos h1]
  · simp only [format_views]
    rw [if_pos h]

/-- Witness for `format_views_thresholds` at the concrete counts 1,500 and
2,500,000. -/
theorem format_views_thresholds_witness :
    format_views (some 1500) = "1.5K" ∧ format_views (some 2500000) = "2.5M" := by
  constructor
  · have h := (format_views_thresholds 1500).2.2.1 (by omega) (by omega)
    rw [h]; rfl
  · have h := (format_views_thresholds 2500000).2.2.2 (by omega)
    rw [h]; rfl

/-! ## Claims about `format_age` (C4) -/

/-- Claim C4, counterexample: the claim says ages over 365 days render in
years and unit words pluralize exactly when the magnitude is not 1, but
`format_age` (app.py lines 114-130) has no year or month bucket — a
400-day age renders as `"57 weeks ago"` — and the minutes bucket always
renders the unit as `"min"`, unpluralized even at magnitude 2. -/
theorem format_age_no_year_bucket_cex :
    format_age 400 0 = "57 weeks ago" ∧ format_age 0 120 = "2 min ago" :=
  ⟨rfl, rfl⟩

/-- Claim C4, amended: `format_age` picks its bucket most-coarse first with
no year or month bucket: ages over 7 days render in weeks, at least 1 day in
days, at least 1 hour in hours, at least 1 minute as `"min"` (never
pluralized), and otherwise `"just now"`; the week, day and hour unit words
pluralize exactly when the magnitude is not 1. -/
theorem format_age_buckets (days seconds : Nat) :
    (7 < days →
      format_age days seconds =
        toString (days / 7) ++ " week" ++ plural_s (days / 7) ++ " ago") ∧
    (1 ≤ days → days ≤ 7 →
      format_age days seconds = toString days ++ " day" ++ plural_s days ++ " ago") ∧
    (days = 0 → 1 ≤ seconds / 3600 →
      format_age days seconds =
        toString (seconds / 3600) ++ " hour" ++ plural_s (seconds / 3600) ++ " ago") ∧
    (days = 0 → seconds / 3600 = 0 → 1 ≤ seconds % 3600 / 60 →
      format_age days seconds = toString (seconds % 3600 / 60) ++ " min ago") ∧
    (days = 0 → seconds < 60 → format_age days seconds = "just now") := by
  refine ⟨fun h1 => ?_, fun h1 h2 => ?_, fun h1 h2 => ?_, fun h1 h2 h3 => ?_,
    fun h1 h2 => ?_⟩
  · simp only [format_age]
    rw [if_pos h1]
  · simp only [format_age]
    rw [if_neg (by omega), if_pos h1]
  · simp only [format_age]
    rw [if_neg (by omega), if_neg (by omega), if_pos h2]
  · simp only [format_age]
    rw [if_neg (by omega), if_neg (by omega), if_neg (by omega), if_pos h3]
  · simp only [format_age]
    rw [if_neg (by omega), if_neg (by omega), if_neg (by omega), if_neg (by omega)]

/-- Witness for `format_age_buckets` at a concrete 10-day age. -/
theorem format_age_buckets_witness : format_age 10 0 = "1 week ago" := by
  have h := (format_age_buckets 10 0).1 (by omega)
  rw [h]; rfl

/-! ## Claims about thumbnail selection (C5) -/

/-- Claim C5, counterexample: the claim says the `standard` variant is tried
after `high`, but app.py lines 176-183 read only `medium`, `high` and
`default`: on a thumbnails object carrying only `standard`, the selected
URL is absent rather than the standard variant's URL. -/
theorem thumb_standard_ignored_cex :
    thumb_url_of standard_only_thumbs = none ∧
    thumb_url_of standard_only_thumbs ≠ some "https://img/std.jpg" := by
  refine ⟨rfl, ?_⟩
  decide

/-- Claim C5, amended: the normalizer tries the thumbnail variants in the
order `medium`, then `high`, then `default`, taking the first one present;
the `standard` variant is never consulted, and when none of `medium`,
`high`, `default` exists the thumbnail URL is absent (even if `standard`
is present). -/
theorem thumb_selection_order (t : Thumbs) (o : ThumbObj) :
    (t.medium = some o → thumb_url_of t = o.url) ∧
    (t.medium = none → t.high = some o → thumb_url_of t = o.url) ∧
    (t.medium = none → t.high = none → t.default = some o →
      thumb_url_of t = o.url) ∧
    (t.medium = none → t.high = none → t.default = none →
      thumb_url_of t = none) := by
  obtain ⟨m, hi, st, df⟩ := t
  refine ⟨fun h1 => ?_, fun h1 h2 => ?_, fun h1 h2 h3 => ?_, fun h1 h2 h3 => ?_⟩
  · change m = some o at h1
    subst h1
    rfl
  · change m = none at h1
    change hi = some o at h2
    subst h1; subst h2
    rfl
  · change m = none at h1
    change hi = none at h2
    change df = some o at h3
    subst h1; subst h2; subst h3
    rfl
  · change m = none at h1
    change hi = none at h2
    change df = none at h3
    subst h1; subst h2; subst h3
    rfl

/-- Witness for `thumb_selection_order` on a thumbnails object carrying only
the `medium` variant. -/
theorem thumb_selection_order_witness :
    thumb_url_of medium_thumbs = ThumbObj.url { url := some "https://img/med.jpg" } :=
  (thumb_selection_order medium_thumbs { url := some "https://img/med.jpg" }).1 rfl

/-! ## Claims about `format_duration` (C7) -/

/-- Claim C7: `format_duration` renders 0 or `None` as the dash placeholder;
a positive duration with a zero hour part as `M:SS` with seconds zero-padded
to two digits; a duration with a positive hour part as `H:MM:SS` with
minutes and seconds zero-padded to two digits and no leading zero on hours;
in particular 75 renders as `"1:15"` and 3661 as `"1:01:01"`. -/
theorem format_duration_correct (n : Nat) :
    format_duration none = "–" ∧
    format_duration (some 0) = "–" ∧
    (0 < n → n / 3600 = 0 →
      format_duration (some n) = toString (n / 60) ++ ":" ++ pad2 (n % 60)) ∧
    (0 < n / 3600 →
      format_duration (some n) =
        toString (n / 3600) ++ ":" ++ pad2 (n / 60 % 60) ++ ":" ++ pad2 (n % 60)) ∧
    format_duration (some 75) = "1:15" ∧
    format_duration (some 3661) = "1:01:01" := by
  refine ⟨rfl, rfl, fun h1 h2 => ?_, fun h1 => ?_, rfl, rfl⟩
  · simp only [format_duration]
    rw [if_neg (by omega), if_neg (by omega)]
    rw [show n / 60 % 60 = n / 60 by omega]
  · simp only [format_duration]
    rw [if_neg (by omega), if_pos (by omega)]
    rw [show n / 60 / 60 = n / 3600 by omega]

/-- Witness for `format_duration_correct` at the concrete duration 75. -/
theorem format_duration_correct_witness :
    format_duration (some 75) = toString (75 / 60) ++ ":" ++ pad2 (75 % 60) :=
  (format_duration_correct 75).2.2.1 (by omega) (by omega)

/-! ## Claims about multi-region aggregation (C1) -/

theorem if_isEmpty_self (df : List Video) :
    (if df.isEmpty then ([] : List Video) else df) = df := by
  cases df <;> rfl

theorem regions_concat_cons (fetch : String → Except String (List Video))
    (c : String) (cs : List String) :
    regions_concat fetch (c :: cs) = ok_records (fetch c) ++ regions_concat fetch cs :=
  rfl

theorem fetch_all_ok (fetch : String → Except String (List Video))
    (codes : List String) (h : ∀ c ∈ codes, except_ok (fetch c) = true) :
    fetch_all fetch codes = Except.ok (regions_concat fetch codes) := by
  induction codes with
  | nil => rfl
  | cons c cs ih =>
    have hc := h c (List.mem_cons_self c cs)
    cases hfc : fetch c with
    | error e =>
      rw [hfc] at hc
      exact absurd hc (by simp [except_ok])
    | ok df =>
      have hrest := ih fun x hx => h x (List.mem_cons_of_mem c hx)
      simp only [fetch_all, hfc, hrest, if_isEmpty_self, regions_concat_cons,
        ok_records]

theorem fetch_all_err (fetch : String → Except String (List Video))
    (codes : List String) (h : ∃ c ∈ codes, except_ok (fetch c) = false) :
    ∃ e, fetch_all fetch codes = Except.error e := by
  induction codes with
  | nil =>
    obtain ⟨c, hc, _⟩ := h
    exact absurd hc (List.not_mem_nil c)
  | cons c cs ih =>
    cases hfc : fetch c with
    | error e => exact ⟨e, by simp only [fetch_all, hfc]⟩
    | ok df =>
      obtain ⟨x, hx, hxf⟩ := h
      rcases List.mem_cons.mp hx with h1 | h1
      · subst h1
        rw [hfc] at hxf
        exact absurd hxf (by simp [except_ok])
      · obtain ⟨e, he⟩ := ih ⟨x, h1, hxf⟩
        exact ⟨e, by simp only [fetch_all, hfc, he]⟩

/-- Claim C1, counterexample: the claim says a snapshot containing the
succeeding regions' records is returned whenever at least one region
succeeds, but `fetch_multi_region` (app.py lines 206-223) has no
`try/except` around the per-region calls: with region "A" raising and
region "B" succeeding, the aggregation propagates the failure instead of
returning region "B"'s records. -/
theorem fetch_multi_region_partial_cex :
    fetch_multi_region cex_fetch 0 ["A", "B"] = Except.error "boom" ∧
    except_ok (fetch_multi_region cex_fetch 0 ["A", "B"]) = false :=
  ⟨rfl, rfl⟩

/-- Claim C1, amended: `fetch_multi_region` propagates the failure as soon
as any requested region's fetch raises — partial success is not tolerated.
When every region's fetch succeeds it returns the concatenation of all
regions' records, in request order, together with the fetch timestamp
(regions with an empty result simply contribute no records). -/
theorem fetch_multi_region_propagates (fetch : String → Except String (List Video))
    (now : Int) (codes : List String) :
    ((∀ c ∈ codes, except_ok (fetch c) = true) →
      fetch_multi_region fetch now codes =
        Except.ok (regions_concat fetch codes, now)) ∧
    ((∃ c ∈ codes, except_ok (fetch c) = false) →
      ∃ e, fetch_multi_region fetch now codes = Except.error e) := by
  constructor
  · intro h
    simp only [fetch_multi_region, fetch_all_ok fetch codes h]
  · intro h
    obtain ⟨e, he⟩ := fetch_all_err fetch codes h
    exact ⟨e, by simp only [fetch_multi_region, he]⟩

/-- Witness for `fetch_multi_region_propagates` on an all-succeeding fetch. -/
theorem fetch_multi_region_propagates_witness :
    fetch_multi_region ok_fetch 0 ["US"] =
      Except.ok (regions_concat ok_fetch ["US"], 0) :=
  (fetch_multi_region_propagates ok_fetch 0 ["US"]).1 fun _ _ => rfl

/-! ## Claims about per-item normalization failure (C9) -/

theorem normalizeItem_missing_id (pt : String → Int) (now : Int) (rc : String)
    (it : RawItem) (h : it.id = none) :
    normalizeItem pt now rc it = Except.error "KeyError: id" := by
  simp only [normalizeItem, h]

/-- Claim C9, counterexample: the claim says an item failing normalization
(here: no `id` field) is skipped individually while the remaining items'
records are still returned, but the loop of app.py lines 153-201 has no
per-item `try/except`: `item["id"]` raises and the whole region's
normalization aborts with the error, returning no records at all. -/
theorem normalize_missing_id_cex :
    normalize_items pt0 0 "US" [good_item, bad_item] = Except.error "KeyError: id" ∧
    except_ok (normalize_items pt0 0 "US" [good_item, bad_item]) = false :=
  ⟨rfl, rfl⟩

/-- Claim C9, amended: a raw item whose normalization fails (an item with no
`id` field) aborts the whole region's normalization with an error — no
per-item skipping takes place, and the remaining items contribute no
records (items with other missing sections are instead tolerated through
`.get` defaults and never fail). -/
theorem normalize_missing_id_aborts (pt : String → Int) (now : Int) (rc : String)
    (items : List RawItem) (h : ∃ it ∈ items, it.id = none) :
    ∃ e, normalize_items pt now rc items = Except.error e := by
  induction items with
  | nil =>
    obtain ⟨it, hit, _⟩ := h
    exact absurd hit (List.not_mem_nil it)
  | cons a rest ih =>
    cases hn : normalizeItem pt now rc a with
    | error e => exact ⟨e, by simp only [normalize_items, hn]⟩
    | ok v =>
      have ha : ¬ a.id = none := by
        intro hid
        rw [normalizeItem_missing_id pt now rc a hid] at hn
        exact Except.noConfusion hn
      obtain ⟨it, hit, hid⟩ := h
      rcases List.mem_cons.mp hit with h1 | h1
      · subst h1
        exact absurd hid ha
      · obtain ⟨e, he⟩ := ih ⟨it, h1, hid⟩
        exact ⟨e, by simp only [normalize_items, hn, he]⟩

/-- Witness for `normalize_missing_id_aborts` on a singleton list whose item
lacks an `id`. -/
theorem normalize_missing_id_aborts_witness :
    ∃ e, normalize_items pt0 0 "US" [bad_item] = Except.error e :=
  normalize_missing_id_aborts pt0 0 "US" [bad_item]
    ⟨bad_item, List.mem_cons_self bad_item [], rfl⟩

/-! ## Claims about the `publishedAt` default (C10) -/

/-- Claim C10: an item whose snippet lacks a `publishedAt` value is not
skipped and its `published_at` is not left absent: the normalizer
(app.py lines 163-168) sets it to the current UTC time `now` taken at
normalization, so the record's age against that same clock renders as
just-published (`format_age 0 0 = "just now"`). -/
theorem published_at_defaults_to_now (pt : String → Int) (now : Int)
    (rc vid : String) (item : RawItem) (hid : item.id = some vid)
    (hpub : (snippet_of item).publishedAt = none) :
    ∃ v, normalizeItem pt now rc item = Except.ok v ∧ v.published_at = now ∧
      format_age 0 0 = "just now" := by
  obtain ⟨i, sn, st, cd⟩ := item
  change i = some vid at hid
  subst hid
  cases sn with
  | none => exact ⟨_, rfl, rfl, rfl⟩
  | some s0 =>
    obtain ⟨t, d, ch, p, th⟩ := s0
    change p = none at hpub
    subst hpub
    exact ⟨_, rfl, rfl, rfl⟩

/-- Witness for `published_at_defaults_to_now` on a concrete dateless item. -/
theorem published_at_defaults_to_now_witness :
    ∃ v, normalizeItem pt0 0 "US" good_item = Except.ok v ∧ v.published_at = 0 ∧
      format_age 0 0 = "just now" :=
  published_at_defaults_to_now pt0 0 "US" "vid1" good_item rfl rfl

/-! ## Claims about the duration parser (C6) -/

theorem take_digits_append : ∀ (l : List Char) (acc : Nat) (rest : List Char),
    (∀ c ∈ l, c.isDigit = true) →
    (∀ c r, rest = c :: r → c.isDigit = false) →
    take_digits (l ++ rest) acc =
      (l.foldl (fun a c => a * 10 + digit_val c) acc, rest)
  | [], acc, rest, _, hr => by
    cases rest with
    | nil => rfl
    | cons c r =>
      simp only [List.nil_append, take_digits, List.foldl]
      rw [if_neg (by simp [hr c r rfl])]
  | c :: l2, acc, rest, hl, hr => by
    simp only [List.cons_append, take_digits, List.foldl]
    rw [if_pos (hl c (List.mem_cons_self c l2))]
    exact take_digits_append l2 (acc * 10 + digit_val c) rest
      (fun x hx => hl x (List.mem_cons_of_mem c hx)) hr

theorem try_comp_hit (desig : Char) (l rest : List Char) (hne : l ≠ [])
    (hl : ∀ c ∈ l, c.isDigit = true) (hdes : desig.isDigit = false) :
    try_comp desig (l ++ desig :: rest) = (digits_val l, rest) := by
  cases l with
  | nil => exact absurd rfl hne
  | cons c l2 =>
    have hc : c.isDigit = true := hl c (List.mem_cons_self c l2)
    have htd := take_digits_append (c :: l2) 0 (desig :: rest) hl
      (fun x r hxr => by cases hxr; exact hdes)
    rw [List.cons_append]
    rw [List.cons_append] at htd
    simp only [try_comp]
    rw [if_pos hc, htd]
    dsimp only
    rw [if_pos rfl]
    rfl

theorem try_comp_wrong (desig other : Char) (l rest : List Char) (hne : l ≠ [])
    (hl : ∀ c ∈ l, c.isDigit = true) (hod : other.isDigit = false)
    (hdiff : other ≠ desig) :
    try_comp desig (l ++ other :: rest) = (0, l ++ other :: rest) := by
  cases l with
  | nil => exact absurd rfl hne
  | cons c l2 =>
    have hc : c.isDigit = true := hl c (List.mem_cons_self c l2)
    have htd := take_digits_append (c :: l2) 0 (other :: rest) hl
      (fun x r hxr => by cases hxr; exact hod)
    rw [List.cons_append]
    rw [List.cons_append] at htd
    simp only [try_comp]
    rw [if_pos hc, htd]
    dsimp only
    rw [if_neg hdiff]

theorem try_comp_nodigit (desig : Char) (cs : List Char)
    (h : ∀ c r, cs = c :: r → c.isDigit = false) :
    try_comp desig cs = (0, cs) := by
  cases cs with
  | nil => rfl
  | cons c r =>
    simp only [try_comp]
    rw [if_neg (by simp [h c r rfl])]

theorem valid_comp_some (l : List Char) (vo : valid_comp (some l) = true) :
    l ≠ [] ∧ ∀ c ∈ l, c.isDigit = true := by
  cases l with
  | nil => simp [valid_comp] at vo
  | cons c l2 =>
    simp only [valid_comp, Bool.and_eq_true, List.all_eq_true] at vo
    exact ⟨by simp, vo.2⟩

theorem try_comp_on_comps (desig : Char) (o : Option (List Char))
    (rest : List Char) (vo : valid_comp o = true) (hdes : desig.isDigit = false)
    (hno : try_comp desig rest = (0, rest)) :
    try_comp desig (comp_str o desig ++ rest) = (opt_val o, rest) := by
  cases o with
  | none => simpa [comp_str, opt_val] using hno
  | some l =>
    obtain ⟨hne, hl⟩ := valid_comp_some l vo
    show try_comp desig ((l ++ [desig]) ++ rest) = (digits_val l, rest)
    rw [List.append_assoc]
    exact try_comp_hit desig l rest hne hl hdes

theorem try_comp_skip_comps (desig : Char) (o : Option (List Char))
    (desig2 : Char) (rest : List Char) (vo : valid_comp o = true)
    (hd2 : desig2.isDigit = false) (hdiff : desig2 ≠ desig)
    (hno : try_comp desig rest = (0, rest)) :
    try_comp desig (comp_str o desig2 ++ rest) = (0, comp_str o desig2 ++ rest) := by
  cases o with
  | none => simpa [comp_str] using hno
  | some l =>
    obtain ⟨hne, hl⟩ := valid_comp_some l vo
    show try_comp desig ((l ++ [desig2]) ++ rest) = (0, (l ++ [desig2]) ++ rest)
    rw [List.append_assoc]
    exact try_comp_wrong desig desig2 l rest hne hl hd2 hdiff

theorem valid_comp_of (l : List Char) (hne : l ≠ [])
    (hl : ∀ c ∈ l, c.isDigit = true) : valid_comp (some l) = true := by
  cases l with
  | nil => exact absurd rfl hne
  | cons c l2 =>
    simp only [valid_comp, List.isEmpty_cons, Bool.not_false, Bool.true_and,
      List.all_eq_true]
    exact hl

theorem take_digits_decomp : ∀ (cs : List Char) (acc : Nat),
    ∃ l r, cs = l ++ r ∧ (∀ c ∈ l, c.isDigit = true) ∧
      (∀ c rr, r = c :: rr → c.isDigit = false) ∧
      take_digits cs acc = (l.foldl (fun a c => a * 10 + digit_val c) acc, r)
  | [], acc => ⟨[], [], rfl, by simp, fun c rr h => List.noConfusion h, rfl⟩
  | c :: cs, acc => by
    by_cases hc : c.isDigit = true
    · obtain ⟨l, r, h1, h2, h3, h4⟩ := take_digits_decomp cs (acc * 10 + digit_val c)
      refine ⟨c :: l, r, ?_, ?_, h3, ?_⟩
      · rw [List.cons_append, ← h1]
      · intro x hx
        rcases List.mem_cons.mp hx with hx1 | hx2
        · rw [hx1]; exact hc
        · exact h2 x hx2
      · simp only [take_digits]
        rw [if_pos hc, h4]
        rfl
    · refine ⟨[], c :: cs, rfl, by simp, ?_, ?_⟩
      · intro x rr h
        cases h
        simpa using hc
      · simp only [take_digits]
        rw [if_neg hc]
        rfl

theorem try_comp_decomp (desig : Char) (cs : List Char) :
    ∃ o r, valid_comp o = true ∧ cs = comp_str o desig ++ r ∧
      try_comp desig cs = (opt_val o, r) := by
  cases cs with
  | nil => exact ⟨none, [], rfl, rfl, rfl⟩
  | cons c rest =>
    by_cases hc : c.isDigit = true
    · obtain ⟨l, r, h1, h2, h3, h4⟩ := take_digits_decomp (c :: rest) 0
      have hlne : l ≠ [] := by
        intro hl
        rw [hl, List.nil_append] at h1
        have hcd := h3 c rest h1.symm
        rw [hcd] at hc
        exact Bool.noConfusion hc
      cases r with
      | nil =>
        refine ⟨none, c :: rest, rfl, rfl, ?_⟩
        simp only [try_comp]
        rw [if_pos hc, h4]
        rfl
      | cons dch r2 =>
        by_cases hd : dch = desig
        · subst hd
          refine ⟨some l, r2, valid_comp_of l hlne h2, ?_, ?_⟩
          · show c :: rest = (l ++ [dch]) ++ r2
            rw [List.append_assoc, List.singleton_append, ← h1]
          · simp only [try_comp]
            rw [if_pos hc, h4]
            dsimp only
            rw [if_pos rfl]
            rfl
        · refine ⟨none, c :: rest, rfl, rfl, ?_⟩
          simp only [try_comp]
          rw [if_pos hc, h4]
          dsimp only
          rw [if_neg hd]
          rfl
    · refine ⟨none, c :: rest, rfl, rfl, ?_⟩
      simp only [try_comp]
      rw [if_neg hc]
      rfl

theorem dur_after_p_eq_T (v : Nat) (r : List Char) :
    dur_after_p (v, 'T' :: r) = dur_hms v (try_comp 'H' r) := rfl

theorem dur_after_p_nil (v : Nat) :
    dur_after_p (v, []) = dur_total v 0 0 0 [] := rfl

theorem dur_after_p_cons_ne (v : Nat) (c : Char) (r : List Char) (hc : c ≠ 'T') :
    dur_after_p (v, c :: r) = dur_total v 0 0 0 (c :: r) := by
  simp only [dur_after_p]
  split
  · rename_i r2 heq
    injection heq with heq1 heq2
    exact absurd heq1 hc
  · rfl

theorem dur_total_nonempty (d h m sec : Nat) (c : Char) (r : List Char) :
    dur_total d h m sec (c :: r) = 0 := by
  simp [dur_total]

theorem dur_total_empty (d h m sec : Nat) :
    dur_total d h m sec [] = (((d * 24 + h) * 60) + m) * 60 + sec := by
  simp [dur_total]

theorem parse_data_P (s : String) (rest : List Char) (h : s.data = 'P' :: rest) :
    parse_iso8601_duration (some s) = dur_after_p (try_comp 'D' rest) := by
  simp only [parse_iso8601_duration, h]

theorem parse_data_nil (s : String) (h : s.data = []) :
    parse_iso8601_duration (some s) = 0 := by
  simp only [parse_iso8601_duration, h]

theorem parse_data_not_P (s : String) (c : Char) (rest : List Char)
    (h : s.data = c :: rest) (hc : c ≠ 'P') :
    parse_iso8601_duration (some s) = 0 := by
  simp only [parse_iso8601_duration, h]
  split
  · rename_i r heq
    injection heq with heq1 heq2
    exact absurd heq1 hc
  · rfl

/-- Completeness of the grammar: any input the parser maps to a non-zero
value is of one of the accepted forms (`P#DT#H#M#S` with any component
absent, or `P#D` with no `T`-part), and its value is the component formula.
Contrapositively: every input failing the grammar yields 0. -/
theorem parse_grammar_complete (str : String)
    (hne : parse_iso8601_duration (some str) ≠ 0) :
    ∃ d h m s, valid_comp d = true ∧ valid_comp h = true ∧
      valid_comp m = true ∧ valid_comp s = true ∧
      (str.data = 'P' :: (comp_str d 'D' ++
          'T' :: (comp_str h 'H' ++ (comp_str m 'M' ++ comp_str s 'S'))) ∨
        (str.data = 'P' :: comp_str d 'D' ∧ h = none ∧ m = none ∧ s = none)) ∧
      parse_iso8601_duration (some str) =
        opt_val d * 86400 + opt_val h * 3600 + opt_val m * 60 + opt_val s := by
  rcases hs : str.data with _ | ⟨c, rest⟩
  · exact absurd (parse_data_nil str hs) hne
  · by_cases hc : c = 'P'
    · subst hc
      have hp := parse_data_P str rest hs
      rw [hp] at hne
      obtain ⟨d, r1, vd, hrest, htc⟩ := try_comp_decomp 'D' rest
      rw [htc] at hne
      rw [hp, htc]
      cases r1 with
      | nil =>
        refine ⟨d, none, none, none, vd, rfl, rfl, rfl,
          Or.inr ⟨?_, rfl, rfl, rfl⟩, ?_⟩
        · rw [hrest, List.append_nil]
        · rw [dur_after_p_nil, dur_total_empty]
          simp only [opt_val]
          omega
      | cons c1 r1t =>
        by_cases hT : c1 = 'T'
        · subst hT
          rw [dur_after_p_eq_T] at hne ⊢
          simp only [dur_hms] at hne ⊢
          obtain ⟨h2, r2, vh2, hr1t, htcH⟩ := try_comp_decomp 'H' r1t
          rw [htcH] at hne ⊢
          dsimp only at hne ⊢
          simp only [dur_ms] at hne ⊢
          obtain ⟨m2, r3, vm2, hr2, htcM⟩ := try_comp_decomp 'M' r2
          rw [htcM] at hne ⊢
          dsimp only at hne ⊢
          simp only [dur_s] at hne ⊢
          obtain ⟨s2, r4, vs2, hr3, htcS⟩ := try_comp_decomp 'S' r3
          rw [htcS] at hne ⊢
          dsimp only at hne ⊢
          cases r4 with
          | cons c4 r4t => exact absurd (dur_total_nonempty _ _ _ _ _ _) hne
          | nil =>
            refine ⟨d, h2, m2, s2, vd, vh2, vm2, vs2, Or.inl ?_, ?_⟩
            · rw [hrest, hr1t, hr2, hr3, List.append_nil]
            · rw [dur_total_empty]
              omega
        · rw [dur_after_p_cons_ne (opt_val d) c1 r1t hT] at hne
          exact absurd (dur_total_nonempty _ _ _ _ _ _) hne
    · exact absurd (parse_data_not_P str c rest hs hc) hne

/-- Claim C6, counterexample: the claim restricts the accepted inputs to the
two forms `PT#H#M#S` and `P#DT#H#M#S` — both containing `T` — and asserts
every other input yields 0.  But the regex of app.py 72-80 makes the whole
`T`-part optional: the string `"P5D"`, which contains no `T` and so matches
neither claimed form, parses to 432000, not 0. -/
theorem parse_iso8601_duration_p5d_cex :
    parse_iso8601_duration (some "P5D") = 432000 ∧
    parse_iso8601_duration (some "P5D") ≠ 0 ∧
    ¬ ('T' ∈ ("P5D" : String).data) := by
  refine ⟨rfl, by decide, by decide⟩

/-- Claim C6, amended: the parser accepts the superset grammar
`P[#D][T[#H][#M][#S]]` — the whole `T`-part is optional, so the accepted
forms are `PT#H#M#S`, `P#DT#H#M#S` and `P#D`, with any component absent —
and returns `days * 86400 + hours * 3600 + minutes * 60 + seconds` for every
string of those forms; every input that is `None`, empty, or fails to match
that grammar returns 0 rather than raising an error (universally: any input
with a non-zero parse is of one of the accepted forms with the component
formula as its value). -/
theorem parse_iso8601_duration_grammar (d h m s : Option (List Char))
    (vd : valid_comp d = true) (vh : valid_comp h = true)
    (vm : valid_comp m = true) (vs : valid_comp s = true) (str : String) :
    parse_iso8601_duration (some (String.mk ('P' :: (comp_str d 'D' ++
        'T' :: (comp_str h 'H' ++ (comp_str m 'M' ++ comp_str s 'S')))))) =
      opt_val d * 86400 + opt_val h * 3600 + opt_val m * 60 + opt_val s ∧
    parse_iso8601_duration (some (String.mk ('P' :: comp_str d 'D'))) =
      opt_val d * 86400 ∧
    parse_iso8601_duration none = 0 ∧
    parse_iso8601_duration (some "") = 0 ∧
    parse_iso8601_duration (some "garbage") = 0 ∧
    (parse_iso8601_duration (some str) ≠ 0 →
      ∃ d2 h2 m2 s2, valid_comp d2 = true ∧ valid_comp h2 = true ∧
        valid_comp m2 = true ∧ valid_comp s2 = true ∧
        (str.data = 'P' :: (comp_str d2 'D' ++
            'T' :: (comp_str h2 'H' ++ (comp_str m2 'M' ++ comp_str s2 'S'))) ∨
          (str.data = 'P' :: comp_str d2 'D' ∧ h2 = none ∧ m2 = none ∧
            s2 = none)) ∧
        parse_iso8601_duration (some str) =
          opt_val d2 * 86400 + opt_val h2 * 3600 + opt_val m2 * 60 +
            opt_val s2) := by
  refine ⟨?_, ?_, rfl, rfl, rfl, parse_grammar_complete str⟩
  case refine_2 =>
    have hD0 : try_comp 'D' (comp_str d 'D') = (opt_val d, []) := by
      have h0 := try_comp_on_comps 'D' d [] vd (by decide) rfl
      simpa using h0
    simp only [parse_iso8601_duration]
    rw [hD0, dur_after_p_nil, dur_total_empty]
    omega
  have hS : try_comp 'S' (comp_str s 'S') = (opt_val s, []) := by
    have := try_comp_on_comps 'S' s [] vs (by decide) rfl
    simpa using this
  have hskipMs : try_comp 'M' (comp_str s 'S') = (0, comp_str s 'S') := by
    have := try_comp_skip_comps 'M' s 'S' [] vs (by decide) (by decide) rfl
    simpa using this
  have hM : try_comp 'M' (comp_str m 'M' ++ comp_str s 'S') =
      (opt_val m, comp_str s 'S') :=
    try_comp_on_comps 'M' m (comp_str s 'S') vm (by decide) hskipMs
  have hskipHs : try_comp 'H' (comp_str s 'S') = (0, comp_str s 'S') := by
    have := try_comp_skip_comps 'H' s 'S' [] vs (by decide) (by decide) rfl
    simpa using this
  have hskipH : try_comp 'H' (comp_str m 'M' ++ comp_str s 'S') =
      (0, comp_str m 'M' ++ comp_str s 'S') :=
    try_comp_skip_comps 'H' m 'M' (comp_str s 'S') vm (by decide) (by decide)
      hskipHs
  have hH : try_comp 'H' (comp_str h 'H' ++ (comp_str m 'M' ++ comp_str s 'S')) =
      (opt_val h, comp_str m 'M' ++ comp_str s 'S') :=
    try_comp_on_comps 'H' h (comp_str m 'M' ++ comp_str s 'S') vh (by decide)
      hskipH
  have hD : try_comp 'D' (comp_str d 'D' ++
      'T' :: (comp_str h 'H' ++ (comp_str m 'M' ++ comp_str s 'S'))) =
      (opt_val d, 'T' :: (comp_str h 'H' ++ (comp_str m 'M' ++ comp_str s 'S'))) :=
    try_comp_on_comps 'D' d _ vd (by decide)
      (try_comp_nodigit 'D' _ (fun c r hcr => by cases hcr; decide))
  simp only [parse_iso8601_duration]
  rw [hD]
  simp only [dur_after_p]
  rw [hH]
  simp only [dur_hms]
  rw [hM]
  simp only [dur_ms]
  rw [hS]
  simp only [dur_s, dur_total, if_pos]
  omega

/-- Witness for `parse_iso8601_duration_grammar` on the concrete strings
`"PT1H30M"` (positive direction, days and seconds absent) and `"P5D"`
(completeness direction at a non-zero parse). -/
theorem parse_iso8601_duration_grammar_witness :
    parse_iso8601_duration (some (String.mk ('P' :: (comp_str none 'D' ++
        'T' :: (comp_str (some ['1']) 'H' ++ (comp_str (some ['3', '0']) 'M' ++
          comp_str none 'S')))))) =
      opt_val none * 86400 + opt_val (some ['1']) * 3600 +
        opt_val (some ['3', '0']) * 60 + opt_val none ∧
    (∃ d2 h2 m2 s2, valid_comp d2 = true ∧ valid_comp h2 = true ∧
      valid_comp m2 = true ∧ valid_comp s2 = true ∧
      (("P5D" : String).data = 'P' :: (comp_str d2 'D' ++
          'T' :: (comp_str h2 'H' ++ (comp_str m2 'M' ++ comp_str s2 'S'))) ∨
        (("P5D" : String).data = 'P' :: comp_str d2 'D' ∧ h2 = none ∧
          m2 = none ∧ s2 = none)) ∧
      parse_iso8601_duration (some "P5D") =
        opt_val d2 * 86400 + opt_val h2 * 3600 + opt_val m2 * 60 +
          opt_val s2) := by
  constructor
  · exact (parse_iso8601_duration_grammar none (some ['1']) (some ['3', '0'])
      none (by decide) (by decide) (by decide) (by decide) "P5D").1
  · exact (parse_iso8601_duration_grammar none none none none (by decide)
      (by decide) (by decide) (by decide) "P5D").2.2.2.2.2 (by decide)

end App
